import Mathlib

/-!
Shallow embedding of `src/pcap/udp.rs` from pcap2socks.

The Rust module defines a `Udp` layer (a pnet `udp::Udp` representation plus the
enclosing source and destination IP addresses) and implements the `Layer` trait
operations `get_type`, `get_size`, `serialize` and `serialize_n` for it, plus
`new`, `parse` and a `Display` implementation.

The heavy lifting is delegated to the pnet crate, whose generated packet code is
embedded here as well, byte for byte over `List Nat` buffers (each element is a
byte value below 256; u16 quantities are stored big-endian):
- `MutableUdpPacket::new` succeeds iff the buffer holds at least 8 bytes;
- `MutableUdpPacket::populate` writes source, destination, length and checksum
  as big-endian 16-bit fields at offsets 0, 2, 4, 6 and then copies the payload
  to offset 8, asserting (panicking) when the payload does not fit;
- `UdpPacket::packet_size(&udp::Udp)` is `8 + payload.len()`;
- `udp::ipv4_checksum` / `udp::ipv6_checksum` compute the ones-complement
  checksum over the pseudo-header word sums, the total data length, and the
  big-endian 16-bit words of the ENTIRE buffer with word 3 (the checksum field)
  skipped, in a u32 accumulator, finished by carry folding and complement.

Machine integers are modelled as `Nat` with explicit `% 2 ^ w` where the Rust
code truncates or wraps.
-/

/-- Models `std::net::IpAddr`: `V4` holds the four u8 octets of an `Ipv4Addr`,
`V6` holds the eight u16 segments of an `Ipv6Addr`. -/
inductive IpAddr where
  | V4 (o0 o1 o2 o3 : Nat)
  | V6 (s0 s1 s2 s3 s4 s5 s6 s7 : Nat)
deriving DecidableEq

/-- Octets of a V4 address are u8 (below 256); segments of a V6 address are u16
(below 65536). This captures the range invariants the Rust types carry. -/
def IpAddr.inRange : IpAddr → Bool
  | .V4 o0 o1 o2 o3 => o0 < 256 && o1 < 256 && o2 < 256 && o3 < 256
  | .V6 s0 s1 s2 s3 s4 s5 s6 s7 =>
      s0 < 65536 && s1 < 65536 && s2 < 65536 && s3 < 65536 &&
      s4 < 65536 && s5 < 65536 && s6 < 65536 && s7 < 65536

/-- Both addresses are the same address-family variant (the condition the
`match self.src { ... }` blocks of `serialize` / `serialize_n` test). -/
def sameFamily : IpAddr → IpAddr → Bool
  | .V4 _ _ _ _, .V4 _ _ _ _ => true
  | .V6 _ _ _ _ _ _ _ _, .V6 _ _ _ _ _ _ _ _ => true
  | _, _ => false

namespace udp

/-- Models the pnet `udp::Udp` representation struct: `source`, `destination`,
`length` and `checksum` are u16 (kept as `Nat`), `payload` is a byte vector. -/
structure Udp where
  source : Nat
  destination : Nat
  length : Nat
  checksum : Nat
  payload : List Nat
deriving DecidableEq

end udp

/-- Models `pcap::udp::Udp`: the pnet representation plus the enclosing
source and destination IP addresses (needed for the checksum). -/
structure Udp where
  layer : udp.Udp
  src : IpAddr
  dst : IpAddr
deriving DecidableEq

/-- Models `Udp::new`: plain construction, no validation. -/
def Udp.new (u : udp.Udp) (src dst : IpAddr) : Udp :=
  ⟨u, src, dst⟩

/-- Big-endian 16-bit read at offset `off` (models the pnet u16be field
getters, `(b0 << 8) | b1` over u8 bytes). Out-of-range bytes default to 0;
all uses below carry a length hypothesis making them in range. -/
def readBE16 (buf : List Nat) (off : Nat) : Nat :=
  256 * buf.getD off 0 + buf.getD (off + 1) 0

/-- Models `Udp::parse`: reads the four header fields from the raw packet view
at offsets 0, 2, 4, 6 and sets the payload to the empty vector. -/
def Udp.parse (packet : List Nat) (src dst : IpAddr) : Udp :=
  ⟨⟨readBE16 packet 0, readBE16 packet 2, readBE16 packet 4, readBE16 packet 6, []⟩,
   src, dst⟩

/-- Models `Udp::get_size`, which is
`UdpPacket::packet_size(&self.layer) = 8 + self.layer.payload.len()`. -/
def Udp.get_size (u : Udp) : Nat :=
  8 + u.layer.payload.length

/-- Big-endian 16-bit store at offset `off` (models the pnet u16be field
setters: `buf[off] = (val & 0xff00) >> 8; buf[off+1] = val as u8` where the
Rust `val` is u16, hence the `% 65536`). -/
def writeBE16 (buf : List Nat) (off v : Nat) : List Nat :=
  (buf.set off (v % 65536 / 256)).set (off + 1) (v % 256)

/-- Models the `copy_nonoverlapping` of payload bytes into the buffer starting
at `off` (`List.set` beyond the end is a no-op, but the only caller checks the
bytes fit first). -/
def writeBytes : List Nat → Nat → List Nat → List Nat
  | buf, _, [] => buf
  | buf, off, v :: rest => writeBytes (buf.set off v) (off + 1) rest

/-- Models `MutableUdpPacket::set_payload`: `assert!(vals.len() <= packet.len() - 8)`
(the assertion failure, a Rust panic, is `none`), then copies the bytes to
offset 8. -/
def setPayload (buf : List Nat) (vals : List Nat) : Option (List Nat) :=
  if vals.length ≤ buf.length - 8 then some (writeBytes buf 8 vals) else none

/-- Models `MutableUdpPacket::populate(&udp::Udp)`: set_source, set_destination,
set_length, set_checksum (big-endian at offsets 0, 2, 4, 6), then set_payload. -/
def populate (buf : List Nat) (l : udp.Udp) : Option (List Nat) :=
  setPayload
    (writeBE16 (writeBE16 (writeBE16 (writeBE16 buf 0 l.source) 2 l.destination)
      4 l.length) 6 l.checksum)
    l.payload

/-- Big-endian 16-bit word number `i` of a byte buffer (bytes `2*i` and `2*i+1`). -/
def beWordAt (data : List Nat) (i : Nat) : Nat :=
  256 * data.getD (2 * i) 0 + data.getD (2 * i + 1) 0

/-- Sum of the first `count` big-endian words of `data`, with word number
`skip` contributing 0 (the two loops of pnet `util::sum_be_words` around the
skipped checksum word). -/
def sumWords (data : List Nat) (skip : Nat) : Nat → Nat
  | 0 => 0
  | i + 1 => sumWords data skip i + (if i = skip then 0 else beWordAt data i)

/-- Models pnet `util::sum_be_words(data, skipword)`: the skip index is clamped
to the number of complete words, all other complete big-endian words are
summed, and an odd trailing byte is added as a high byte. -/
def sumBeWords (data : List Nat) (skipword : Nat) : Nat :=
  sumWords data (min skipword (data.length / 2)) (data.length / 2) +
    (if data.length % 2 = 1 then 256 * data.getD (data.length - 1) 0 else 0)

/-- One iteration of the carry-folding loop of pnet `util::finalize_checksum`:
`sum = (sum & 0xFFFF) + (sum >> 16)`. -/
def foldCarryStep (sum : Nat) : Nat :=
  sum % 65536 + sum / 65536

/-- Models the `while sum >> 16 != 0` loop of pnet `util::finalize_checksum`.
On any u32 input the loop stabilizes within three iterations (one step takes a
value below 2 ^ 32 below 2 ^ 17, a second takes it to at most 2 ^ 16, a third
ends below 2 ^ 16), and each guarded step is the identity once the value is
below 2 ^ 16, so three guarded steps compute the loop exactly; `foldCarry_lt`
below certifies that the result of a u32 input is below 2 ^ 16. -/
def foldCarry (sum : Nat) : Nat :=
  let s1 := if sum < 65536 then sum else foldCarryStep sum
  let s2 := if s1 < 65536 then s1 else foldCarryStep s1
  if s2 < 65536 then s2 else foldCarryStep s2

/-- Models pnet `util::finalize_checksum`: fold the carries of the (wrapping
u32) accumulator, then complement: `!sum as u16` is `65535 - sum` for
`sum < 65536`. -/
def finalizeChecksum (sum : Nat) : Nat :=
  65535 - foldCarry (sum % 4294967296)

namespace udp

/-- Models pnet `util::ipv4_word_sum`: the two big-endian 16-bit words of the
four octets. -/
def ipv4WordSum (o0 o1 o2 o3 : Nat) : Nat :=
  (256 * o0 + o1) + (256 * o2 + o3)

/-- Models pnet `udp::ipv4_checksum(packet, src, dst)`, which is
`util::ipv4_checksum(packet.packet(), 3, &[], src, dst, Udp = 17)`: word sums
of both addresses, protocol number 17, total data length, and the data words
with word 3 skipped, finalized. `data` is the ENTIRE buffer underlying the
packet view. -/
def ipv4_checksum (data : List Nat) (s0 s1 s2 s3 d0 d1 d2 d3 : Nat) : Nat :=
  finalizeChecksum
    (ipv4WordSum s0 s1 s2 s3 + ipv4WordSum d0 d1 d2 d3 + 17 + data.length +
      sumBeWords data 3)

/-- Models pnet `util::ipv6_word_sum`: the sum of the eight u16 segments. -/
def ipv6WordSum (s0 s1 s2 s3 s4 s5 s6 s7 : Nat) : Nat :=
  s0 + s1 + s2 + s3 + s4 + s5 + s6 + s7

/-- Models pnet `udp::ipv6_checksum(packet, src, dst)`, which is
`util::ipv6_checksum(packet.packet(), 3, &[], src, dst, Udp = 17)`. -/
def ipv6_checksum (data : List Nat)
    (s0 s1 s2 s3 s4 s5 s6 s7 d0 d1 d2 d3 d4 d5 d6 d7 : Nat) : Nat :=
  finalizeChecksum
    (ipv6WordSum s0 s1 s2 s3 s4 s5 s6 s7 + ipv6WordSum d0 d1 d2 d3 d4 d5 d6 d7 +
      17 + data.length + sumBeWords data 3)

end udp

/-- The two error strings the Rust code returns in its `Err` results:
`bufferTooSmall` stands for the literal message `"buffer is too small"`,
`addressFamilyMismatch` for the IP-version-mismatch message. -/
inductive SerializeError where
  | bufferTooSmall
  | addressFamilyMismatch
deriving DecidableEq

/-- Outcome of a `serialize` / `serialize_n` call: the Rust `Result` value
together with the final contents of the caller-supplied buffer (the Rust code
mutates the buffer in place). `assertViolation` models the Rust panic raised
by the `assert!` inside pnet `set_payload`. -/
inductive Outcome (α : Type) where
  | ok (val : α) (buffer : List Nat)
  | err (e : SerializeError) (buffer : List Nat)
  | assertViolation
deriving DecidableEq

/-- The `Result` value of an outcome, when the call returned at all. -/
def Outcome.value {α : Type} : Outcome α → Option α
  | .ok v _ => some v
  | .err _ _ => none
  | .assertViolation => none

/-- The final buffer contents, when the call returned at all. -/
def Outcome.finalBuffer {α : Type} : Outcome α → Option (List Nat)
  | .ok _ b => some b
  | .err _ b => some b
  | .assertViolation => none

/-- The error of a failed call. -/
def Outcome.errorOf {α : Type} : Outcome α → Option SerializeError
  | .ok _ _ => none
  | .err e _ => some e
  | .assertViolation => none

/-- Models `Udp::serialize` (the `Layer` impl): `MutableUdpPacket::new` fails
for buffers below 8 bytes; `populate` writes the four fields and the payload
(possibly panicking); then the checksum is computed according to the address
families over the whole buffer and written at offset 6, or the mismatch error
is returned with the buffer already populated. -/
def Udp.serialize (u : Udp) (buffer : List Nat) : Outcome Unit :=
  if buffer.length < 8 then .err .bufferTooSmall buffer
  else
    match populate buffer u.layer with
    | none => .assertViolation
    | some b =>
      match u.src, u.dst with
      | .V4 s0 s1 s2 s3, .V4 d0 d1 d2 d3 =>
          .ok () (writeBE16 b 6 (udp.ipv4_checksum b s0 s1 s2 s3 d0 d1 d2 d3))
      | .V6 s0 s1 s2 s3 s4 s5 s6 s7, .V6 d0 d1 d2 d3 d4 d5 d6 d7 =>
          .ok () (writeBE16 b 6
            (udp.ipv6_checksum b s0 s1 s2 s3 s4 s5 s6 s7 d0 d1 d2 d3 d4 d5 d6 d7))
      | _, _ => .err .addressFamilyMismatch b

/-- Models `Udp::serialize_n`: like `serialize`, but after `populate` it
overwrites the length field with `(self.get_size() + n) as u16` before the
checksum is computed, and returns `self.get_size() + n` (untruncated usize)
on success. -/
def Udp.serialize_n (u : Udp) (n : Nat) (buffer : List Nat) : Outcome Nat :=
  if buffer.length < 8 then .err .bufferTooSmall buffer
  else
    match populate buffer u.layer with
    | none => .assertViolation
    | some b0 =>
      let b := writeBE16 b0 4 (u.get_size + n)
      match u.src, u.dst with
      | .V4 s0 s1 s2 s3, .V4 d0 d1 d2 d3 =>
          .ok (u.get_size + n)
            (writeBE16 b 6 (udp.ipv4_checksum b s0 s1 s2 s3 d0 d1 d2 d3))
      | .V6 s0 s1 s2 s3 s4 s5 s6 s7, .V6 d0 d1 d2 d3 d4 d5 d6 d7 =>
          .ok (u.get_size + n)
            (writeBE16 b 6
              (udp.ipv6_checksum b s0 s1 s2 s3 s4 s5 s6 s7 d0 d1 d2 d3 d4 d5 d6 d7))
      | _, _ => .err .addressFamilyMismatch b

/-- Modelled from the spec: the Display text of `LayerTypes::Udp` (the file
`pcap/layer.rs` defining it is not among the given sources); the spec gives
the expected output line as starting with `"UDP"`. -/
def layerTypeUdpText : String := "UDP"

/-- Models `impl Display for Udp`:
`"{LayerTypes::Udp}: {source} -> {destination}, Length = {length}"`. -/
def Udp.describe (u : Udp) : String :=
  layerTypeUdpText ++ ": " ++ toString u.layer.source ++ " -> " ++
    toString u.layer.destination ++ ", Length = " ++ toString u.layer.length

/-- Modelled from the spec: the standard ones-complement 16-bit checksum of a
list of 16-bit words: sum the words, fold the end-around carries, complement.
(Faithful for word sums below 2 ^ 32, which covers every header-sized input.) -/
def onesComplement16 (words : List Nat) : Nat :=
  65535 - foldCarry (words.foldl (· + ·) 0)

/-- Modelled from the spec: the pseudo-header words (source address,
destination address, zero-padded protocol byte 17, 16-bit UDP length) for a
matching address-family pair; the layout differs by family (4-byte vs 16-byte
addresses). -/
def pseudoHeaderWords : IpAddr → IpAddr → Nat → List Nat
  | .V4 a0 a1 a2 a3, .V4 b0 b1 b2 b3, len =>
      [256 * a0 + a1, 256 * a2 + a3, 256 * b0 + b1, 256 * b2 + b3, 17, len]
  | .V6 a0 a1 a2 a3 a4 a5 a6 a7, .V6 b0 b1 b2 b3 b4 b5 b6 b7, len =>
      [a0, a1, a2, a3, a4, a5, a6, a7, b0, b1, b2, b3, b4, b5, b6, b7, 17, len]
  | _, _, _ => []

/-- Modelled from the spec: an independent reference implementation of the
standard pseudo-header checksum: the ones-complementible 16-bit sum over the
pseudo-header followed by the header words (source port, destination port,
length field, checksum field treated as zero). -/
def referenceChecksum (src dst : IpAddr) (udpLen srcPort dstPort lengthField : Nat) : Nat :=
  onesComplement16 (pseudoHeaderWords src dst udpLen ++ [srcPort, dstPort, lengthField, 0])

/-! Toolkit lemmas about byte-buffer operations. -/

theorem getD_set_eq (l : List Nat) (i v : Nat) (h : i < l.length) :
    (l.set i v).getD i 0 = v := by
  simp [List.getD, List.getElem?_set_self, h]

theorem getD_set_ne (l : List Nat) (i j v : Nat) (h : i ≠ j) :
    (l.set i v).getD j 0 = l.getD j 0 := by
  simp [List.getD, List.getElem?_set_ne, h]

theorem length_writeBE16 (buf : List Nat) (off v : Nat) :
    (writeBE16 buf off v).length = buf.length := by
  simp [writeBE16]

theorem getD_writeBE16_ne (buf : List Nat) (off v j : Nat) (h0 : j ≠ off) (h1 : j ≠ off + 1) :
    (writeBE16 buf off v).getD j 0 = buf.getD j 0 := by
  unfold writeBE16
  rw [getD_set_ne _ _ _ _ (by omega), getD_set_ne _ _ _ _ (by omega)]

theorem getD_writeBE16_hi (buf : List Nat) (off v : Nat) (h : off + 1 < buf.length) :
    (writeBE16 buf off v).getD off 0 = v % 65536 / 256 := by
  unfold writeBE16
  rw [getD_set_ne _ _ _ _ (by omega), getD_set_eq _ _ _ (by omega)]

theorem getD_writeBE16_lo (buf : List Nat) (off v : Nat) (h : off + 1 < buf.length) :
    (writeBE16 buf off v).getD (off + 1) 0 = v % 256 := by
  unfold writeBE16
  rw [getD_set_eq]
  simpa using h

theorem readBE16_writeBE16 (buf : List Nat) (off v : Nat) (h : off + 1 < buf.length) :
    readBE16 (writeBE16 buf off v) off = v % 65536 := by
  unfold readBE16
  rw [getD_writeBE16_hi _ _ _ h, getD_writeBE16_lo _ _ _ h]
  omega

theorem length_writeBytes (vs : List Nat) : ∀ (buf : List Nat) (off : Nat),
    (writeBytes buf off vs).length = buf.length := by
  induction vs with
  | nil => intro buf off; rfl
  | cons v rest ih => intro buf off; simp [writeBytes, ih]

theorem getD_writeBytes_lt (vs : List Nat) : ∀ (buf : List Nat) (off j : Nat), j < off →
    (writeBytes buf off vs).getD j 0 = buf.getD j 0 := by
  induction vs with
  | nil => intro buf off j _; rfl
  | cons v rest ih =>
    intro buf off j h
    show (writeBytes (buf.set off v) (off + 1) rest).getD j 0 = _
    rw [ih _ _ _ (by omega), getD_set_ne _ _ _ _ (by omega)]

theorem getD_writeBytes_ge (vs : List Nat) : ∀ (buf : List Nat) (off j : Nat),
    off + vs.length ≤ j →
    (writeBytes buf off vs).getD j 0 = buf.getD j 0 := by
  induction vs with
  | nil => intro buf off j _; rfl
  | cons v rest ih =>
    intro buf off j h
    simp only [List.length_cons] at h
    show (writeBytes (buf.set off v) (off + 1) rest).getD j 0 = _
    rw [ih _ _ _ (by omega), getD_set_ne _ _ _ _ (by omega)]

theorem getD_writeBytes_in (vs : List Nat) : ∀ (buf : List Nat) (off j : Nat),
    off ≤ j → j < off + vs.length → j < buf.length →
    (writeBytes buf off vs).getD j 0 = vs.getD (j - off) 0 := by
  induction vs with
  | nil => intro buf off j h1 h2 _; simp only [List.length_nil] at h2; omega
  | cons v rest ih =>
    intro buf off j h1 h2 h3
    simp only [List.length_cons] at h2
    show (writeBytes (buf.set off v) (off + 1) rest).getD j 0 = _
    rcases Nat.eq_or_lt_of_le h1 with he | hlt
    · subst he
      rw [getD_writeBytes_lt _ _ _ _ (by omega), getD_set_eq _ _ _ h3]
      simp
    · rw [ih _ _ _ (by omega) (by omega) (by simpa using h3)]
      have hk : j - off = (j - (off + 1)) + 1 := by omega
      rw [hk]
      simp [List.getD]

theorem list_eq_of_getD : ∀ (as bs : List Nat), as.length = bs.length →
    (∀ j, as.getD j 0 = bs.getD j 0) → as = bs := by
  intro as
  induction as with
  | nil =>
    intro bs hlen _
    cases bs with
    | nil => rfl
    | cons b tb => simp at hlen
  | cons a ta ih =>
    intro bs hlen h
    cases bs with
    | nil => simp at hlen
    | cons b tb =>
      have h0 := h 0
      simp [List.getD] at h0
      have htail : ta = tb := by
        apply ih
        · simpa using hlen
        · intro j
          have hj := h (j + 1)
          simpa [List.getD] using hj
      rw [h0, htail]

/-- Full characterization of a successful `populate` call: when the payload
fits, the result keeps the buffer length, holds the four fields big-endian at
offsets 0-7, the payload bytes from offset 8, and the original buffer bytes
beyond the payload. -/
theorem populate_spec (buf : List Nat) (l : udp.Udp) (h : 8 + l.payload.length ≤ buf.length) :
    ∃ p, populate buf l = some p ∧
      p.length = buf.length ∧
      p.getD 0 0 = l.source % 65536 / 256 ∧
      p.getD 1 0 = l.source % 256 ∧
      p.getD 2 0 = l.destination % 65536 / 256 ∧
      p.getD 3 0 = l.destination % 256 ∧
      p.getD 4 0 = l.length % 65536 / 256 ∧
      p.getD 5 0 = l.length % 256 ∧
      p.getD 6 0 = l.checksum % 65536 / 256 ∧
      p.getD 7 0 = l.checksum % 256 ∧
      (∀ j, 8 ≤ j → j < 8 + l.payload.length → p.getD j 0 = l.payload.getD (j - 8) 0) ∧
      (∀ j, 8 + l.payload.length ≤ j → p.getD j 0 = buf.getD j 0) := by
  refine ⟨writeBytes
      (writeBE16 (writeBE16 (writeBE16 (writeBE16 buf 0 l.source) 2 l.destination)
        4 l.length) 6 l.checksum) 8 l.payload, ?_, ?_, ?_, ?_, ?_, ?_, ?_, ?_, ?_, ?_, ?_, ?_⟩
  · unfold populate setPayload
    rw [if_pos]
    simp only [writeBE16, List.length_set]
    omega
  · simp only [length_writeBytes, writeBE16, List.length_set]
  · rw [getD_writeBytes_lt _ _ _ _ (by omega)]
    simp only [writeBE16]
    rw [getD_set_ne _ _ _ _ (by omega), getD_set_ne _ _ _ _ (by omega),
        getD_set_ne _ _ _ _ (by omega), getD_set_ne _ _ _ _ (by omega),
        getD_set_ne _ _ _ _ (by omega), getD_set_ne _ _ _ _ (by omega),
        getD_set_ne _ _ _ _ (by omega),
        getD_set_eq _ _ _ (by omega)]
  · rw [getD_writeBytes_lt _ _ _ _ (by omega)]
    simp only [writeBE16]
    rw [getD_set_ne _ _ _ _ (by omega), getD_set_ne _ _ _ _ (by omega),
        getD_set_ne _ _ _ _ (by omega), getD_set_ne _ _ _ _ (by omega),
        getD_set_ne _ _ _ _ (by omega), getD_set_ne _ _ _ _ (by omega),
        getD_set_eq _ _ _ (by simp only [List.length_set]; omega)]
  · rw [getD_writeBytes_lt _ _ _ _ (by omega)]
    simp only [writeBE16]
    rw [getD_set_ne _ _ _ _ (by omega), getD_set_ne _ _ _ _ (by omega),
        getD_set_ne _ _ _ _ (by omega), getD_set_ne _ _ _ _ (by omega),
        getD_set_ne _ _ _ _ (by omega),
        getD_set_eq _ _ _ (by simp only [List.length_set]; omega)]
  · rw [getD_writeBytes_lt _ _ _ _ (by omega)]
    simp only [writeBE16]
    rw [getD_set_ne _ _ _ _ (by omega), getD_set_ne _ _ _ _ (by omega),
        getD_set_ne _ _ _ _ (by omega), getD_set_ne _ _ _ _ (by omega),
        getD_set_eq _ _ _ (by simp only [List.length_set]; omega)]
  · rw [getD_writeBytes_lt _ _ _ _ (by omega)]
    simp only [writeBE16]
    rw [getD_set_ne _ _ _ _ (by omega), getD_set_ne _ _ _ _ (by omega),
        getD_set_ne _ _ _ _ (by omega),
        getD_set_eq _ _ _ (by simp only [List.length_set]; omega)]
  · rw [getD_writeBytes_lt _ _ _ _ (by omega)]
    simp only [writeBE16]
    rw [getD_set_ne _ _ _ _ (by omega), getD_set_ne _ _ _ _ (by omega),
        getD_set_eq _ _ _ (by simp only [List.length_set]; omega)]
  · rw [getD_writeBytes_lt _ _ _ _ (by omega)]
    simp only [writeBE16]
    rw [getD_set_ne _ _ _ _ (by omega),
        getD_set_eq _ _ _ (by simp only [List.length_set]; omega)]
  · rw [getD_writeBytes_lt _ _ _ _ (by omega)]
    simp only [writeBE16]
    rw [getD_set_eq _ _ _ (by simp only [List.length_set]; omega)]
  · intro j hj1 hj2
    rw [getD_writeBytes_in _ _ _ _ (by omega) (by omega) (by
        simp only [writeBE16, List.length_set]
        omega)]
  · intro j hj
    rw [getD_writeBytes_ge _ _ _ _ (by omega)]
    simp only [writeBE16]
    rw [getD_set_ne _ _ _ _ (by omega), getD_set_ne _ _ _ _ (by omega),
        getD_set_ne _ _ _ _ (by omega), getD_set_ne _ _ _ _ (by omega),
        getD_set_ne _ _ _ _ (by omega), getD_set_ne _ _ _ _ (by omega),
        getD_set_ne _ _ _ _ (by omega), getD_set_ne _ _ _ _ (by omega)]

/-! Toolkit lemmas about the checksum computation. -/

theorem sumWords_zero (data : List Nat) (skip : Nat) : sumWords data skip 0 = 0 := rfl

theorem sumWords_succ (data : List Nat) (skip i : Nat) :
    sumWords data skip (i + 1) =
      sumWords data skip i + (if i = skip then 0 else beWordAt data i) := rfl

/-- On an 8-byte buffer, `sum_be_words` with skipword 3 sums exactly the three
big-endian words before the checksum word. -/
theorem sumBeWords_eight (p : List Nat) (h : p.length = 8) :
    sumBeWords p 3 = beWordAt p 0 + beWordAt p 1 + beWordAt p 2 := by
  unfold sumBeWords
  rw [h]
  norm_num
  rw [show (4:Nat) = 3 + 1 from rfl, sumWords_succ,
      show (3:Nat) = 2 + 1 from rfl, sumWords_succ,
      show (2:Nat) = 1 + 1 from rfl, sumWords_succ,
      show (1:Nat) = 0 + 1 from rfl, sumWords_succ, sumWords_zero]
  norm_num

/-- The carry folding of a u32 value ends below 2 ^ 16 (certifying that three
guarded steps are as many as the `while` loop of `finalize_checksum` needs). -/
theorem foldCarry_lt (s : Nat) (h : s < 4294967296) : foldCarry s < 65536 := by
  simp only [foldCarry, foldCarryStep]
  split_ifs <;> omega

/-- The folded value of a u32 input is a fixed point of the loop body, so the
`while sum >> 16 != 0` loop indeed stops there. -/
theorem foldCarry_fixpoint (s : Nat) (h : s < 4294967296) :
    foldCarry (foldCarry s) = foldCarry s := by
  have hlt := foldCarry_lt s h
  simp only [foldCarry, foldCarryStep] at hlt ⊢
  split_ifs <;> omega

theorem finalizeChecksum_le (sum : Nat) : finalizeChecksum sum ≤ 65535 := by
  unfold finalizeChecksum
  omega

/-- Identical words (away from the skipped word) give identical word sums. -/
theorem sumWords_congr (b1 b2 : List Nat) (skip : Nat) :
    ∀ count : Nat,
    (∀ j, j < 2 * count → j ≠ 2 * skip → j ≠ 2 * skip + 1 → b1.getD j 0 = b2.getD j 0) →
    sumWords b1 skip count = sumWords b2 skip count := by
  intro count
  induction count with
  | zero => intro _; rfl
  | succ i ih =>
    intro h
    rw [sumWords_succ, sumWords_succ, ih (fun j hj h6 h7 => h j (by omega) h6 h7)]
    congr 1
    by_cases hi : i = skip
    · simp [hi]
    · simp only [if_neg hi]
      unfold beWordAt
      rw [h (2 * i) (by omega) (by omega) (by omega),
          h (2 * i + 1) (by omega) (by omega) (by omega)]

/-- Buffers of equal length (at least 8) agreeing everywhere but on the
checksum bytes 6 and 7 have the same `sum_be_words _ 3`. -/
theorem sumBeWords_congr (b1 b2 : List Nat) (hlen : b1.length = b2.length)
    (h8 : 8 ≤ b1.length) (h : ∀ j, j ≠ 6 → j ≠ 7 → b1.getD j 0 = b2.getD j 0) :
    sumBeWords b1 3 = sumBeWords b2 3 := by
  unfold sumBeWords
  rw [← hlen]
  have hmin : min 3 (b1.length / 2) = 3 := by omega
  rw [hmin]
  congr 1
  · apply sumWords_congr
    intro j hj h6 h7
    exact h j (by omega) (by omega)
  · by_cases hodd : b1.length % 2 = 1
    · simp only [if_pos hodd]
      rw [h (b1.length - 1) (by omega) (by omega)]
    · simp [hodd]

/-! Serialize-level helper lemmas (shared across the claim theorems). -/

theorem readBE16_writeBE16_away (buf : List Nat) (off v off2 : Nat)
    (h : off2 + 1 < off ∨ off + 1 < off2) :
    readBE16 (writeBE16 buf off v) off2 = readBE16 buf off2 := by
  unfold readBE16
  rw [getD_writeBE16_ne _ _ _ _ (by omega) (by omega),
      getD_writeBE16_ne _ _ _ _ (by omega) (by omega)]

/-- A successful `serialize`: with matching families and a buffer the payload
fits in, the result is `ok` with the populated buffer and some checksum value
(at most 65535) written big-endian at offset 6. -/
theorem serialize_ok_spec (u : Udp) (buffer : List Nat)
    (hfam : sameFamily u.src u.dst = true) (hfit : u.get_size ≤ buffer.length) :
    ∃ p ck, populate buffer u.layer = some p ∧ ck ≤ 65535 ∧
      u.serialize buffer = .ok () (writeBE16 p 6 ck) := by
  obtain ⟨l, src, dst⟩ := u
  have hfit8 : 8 + l.payload.length ≤ buffer.length := hfit
  have h8 : ¬ buffer.length < 8 := by omega
  obtain ⟨p, hp, -⟩ := populate_spec buffer l hfit8
  cases src with
  | V4 s0 s1 s2 s3 =>
    cases dst with
    | V4 d0 d1 d2 d3 =>
      refine ⟨p, udp.ipv4_checksum p s0 s1 s2 s3 d0 d1 d2 d3, hp, ?_, ?_⟩
      · exact finalizeChecksum_le _
      · simp [Udp.serialize, h8, hp]
    | V6 d0 d1 d2 d3 d4 d5 d6 d7 => simp [sameFamily] at hfam
  | V6 s0 s1 s2 s3 s4 s5 s6 s7 =>
    cases dst with
    | V4 d0 d1 d2 d3 => simp [sameFamily] at hfam
    | V6 d0 d1 d2 d3 d4 d5 d6 d7 =>
      refine ⟨p,
        udp.ipv6_checksum p s0 s1 s2 s3 s4 s5 s6 s7 d0 d1 d2 d3 d4 d5 d6 d7, hp, ?_, ?_⟩
      · exact finalizeChecksum_le _
      · simp [Udp.serialize, h8, hp]

/-- A successful `serialize_n`: with matching families and a buffer the
payload fits in, the call returns the untruncated `get_size + n` while the
length field carries `(get_size + n) % 2 ^ 16`. -/
theorem serializeN_ok_spec (u : Udp) (n : Nat) (buffer : List Nat)
    (hfam : sameFamily u.src u.dst = true) (hfit : u.get_size ≤ buffer.length) :
    ∃ b, u.serialize_n n buffer = .ok (u.get_size + n) b ∧
      b.length = buffer.length ∧
      readBE16 b 4 = (u.get_size + n) % 65536 := by
  obtain ⟨l, src, dst⟩ := u
  have hfit8 : 8 + l.payload.length ≤ buffer.length := hfit
  have h8 : ¬ buffer.length < 8 := by omega
  obtain ⟨p, hp, hplen, -⟩ := populate_spec buffer l hfit8
  have hgs : (Udp.mk l src dst).get_size = 8 + l.payload.length := rfl
  have hread : ∀ ck,
      readBE16 (writeBE16 (writeBE16 p 4 ((Udp.mk l src dst).get_size + n)) 6 ck) 4 =
        ((Udp.mk l src dst).get_size + n) % 65536 := by
    intro ck
    rw [readBE16_writeBE16_away _ _ _ _ (by omega), readBE16_writeBE16 _ _ _ (by omega)]
  have hlen : ∀ ck,
      (writeBE16 (writeBE16 p 4 ((Udp.mk l src dst).get_size + n)) 6 ck).length =
        buffer.length := by
    intro ck
    rw [length_writeBE16, length_writeBE16, hplen]
  cases src with
  | V4 s0 s1 s2 s3 =>
    cases dst with
    | V4 d0 d1 d2 d3 =>
      refine ⟨writeBE16
          (writeBE16 p 4
            ((Udp.mk l (IpAddr.V4 s0 s1 s2 s3) (IpAddr.V4 d0 d1 d2 d3)).get_size + n)) 6
          (udp.ipv4_checksum
            (writeBE16 p 4
              ((Udp.mk l (IpAddr.V4 s0 s1 s2 s3) (IpAddr.V4 d0 d1 d2 d3)).get_size + n))
            s0 s1 s2 s3 d0 d1 d2 d3), ?_, hlen _, hread _⟩
      simp [Udp.serialize_n, h8, hp]
    | V6 d0 d1 d2 d3 d4 d5 d6 d7 => simp [sameFamily] at hfam
  | V6 s0 s1 s2 s3 s4 s5 s6 s7 =>
    cases dst with
    | V4 d0 d1 d2 d3 => simp [sameFamily] at hfam
    | V6 d0 d1 d2 d3 d4 d5 d6 d7 =>
      refine ⟨writeBE16
          (writeBE16 p 4
            ((Udp.mk l (IpAddr.V6 s0 s1 s2 s3 s4 s5 s6 s7)
              (IpAddr.V6 d0 d1 d2 d3 d4 d5 d6 d7)).get_size + n)) 6
          (udp.ipv6_checksum
            (writeBE16 p 4
              ((Udp.mk l (IpAddr.V6 s0 s1 s2 s3 s4 s5 s6 s7)
                (IpAddr.V6 d0 d1 d2 d3 d4 d5 d6 d7)).get_size + n))
            s0 s1 s2 s3 s4 s5 s6 s7 d0 d1 d2 d3 d4 d5 d6 d7), ?_, hlen _, hread _⟩
      simp [Udp.serialize_n, h8, hp]

/-- A mismatched-family `serialize`: once populate succeeded, the error result
carries the already-populated buffer. -/
theorem serialize_mismatch_spec (u : Udp) (buffer : List Nat)
    (hfam : sameFamily u.src u.dst = false) (hfit : u.get_size ≤ buffer.length) :
    ∃ p, populate buffer u.layer = some p ∧
      u.serialize buffer = .err .addressFamilyMismatch p := by
  obtain ⟨l, src, dst⟩ := u
  have hfit8 : 8 + l.payload.length ≤ buffer.length := hfit
  have h8 : ¬ buffer.length < 8 := by omega
  obtain ⟨p, hp, -⟩ := populate_spec buffer l hfit8
  cases src with
  | V4 s0 s1 s2 s3 =>
    cases dst with
    | V4 d0 d1 d2 d3 => simp [sameFamily] at hfam
    | V6 d0 d1 d2 d3 d4 d5 d6 d7 => exact ⟨p, hp, by simp [Udp.serialize, h8, hp]⟩
  | V6 s0 s1 s2 s3 s4 s5 s6 s7 =>
    cases dst with
    | V4 d0 d1 d2 d3 => exact ⟨p, hp, by simp [Udp.serialize, h8, hp]⟩
    | V6 d0 d1 d2 d3 d4 d5 d6 d7 => simp [sameFamily] at hfam

/-- A mismatched-family `serialize_n`: the error result carries the populated
buffer with the length field already overwritten by `(get_size + n) % 2 ^ 16`. -/
theorem serializeN_mismatch_spec (u : Udp) (n : Nat) (buffer : List Nat)
    (hfam : sameFamily u.src u.dst = false) (hfit : u.get_size ≤ buffer.length) :
    ∃ p, populate buffer u.layer = some p ∧
      u.serialize_n n buffer = .err .addressFamilyMismatch (writeBE16 p 4 (u.get_size + n)) := by
  obtain ⟨l, src, dst⟩ := u
  have hfit8 : 8 + l.payload.length ≤ buffer.length := hfit
  have h8 : ¬ buffer.length < 8 := by omega
  obtain ⟨p, hp, -⟩ := populate_spec buffer l hfit8
  cases src with
  | V4 s0 s1 s2 s3 =>
    cases dst with
    | V4 d0 d1 d2 d3 => simp [sameFamily] at hfam
    | V6 d0 d1 d2 d3 d4 d5 d6 d7 => exact ⟨p, hp, by simp [Udp.serialize_n, h8, hp]⟩
  | V6 s0 s1 s2 s3 s4 s5 s6 s7 =>
    cases dst with
    | V4 d0 d1 d2 d3 => exact ⟨p, hp, by simp [Udp.serialize_n, h8, hp]⟩
    | V6 d0 d1 d2 d3 d4 d5 d6 d7 => simp [sameFamily] at hfam

/-! Claim theorems. -/

/-- C1 (counterexample): a header constructed via `new` with the one-byte
payload `[0]` has `get_size = 9`, not 8 — `wire_size` is NOT independent of
the payload length. -/
theorem C1_counterexample :
    (Udp.new ⟨53, 80, 9, 0, [0]⟩ (.V4 10 0 0 1) (.V4 10 0 0 2)).get_size ≠ 8 := by
  decide

/-- C1 (amended): `get_size` returns `8 + payload.length` (pnet
`packet_size`), hence exactly 8 precisely for empty-payload headers, and in
particular for every header produced by `parse`. -/
theorem C1_get_size_amended :
    (∀ u : Udp, u.get_size = 8 + u.layer.payload.length) ∧
    (∀ (raw : List Nat) (src dst : IpAddr), (Udp.parse raw src dst).get_size = 8) :=
  ⟨fun _ => rfl, fun _ _ _ => rfl⟩

/-- C2 (counterexample): `serialize_n` on a header with payload `[0]` and
`n = 0` returns `9 = get_size + n`, not `8 + n = 8`. -/
theorem C2_counterexample :
    (Udp.serialize_n (Udp.new ⟨53, 80, 9, 0, [0]⟩ (.V4 10 0 0 1) (.V4 10 0 0 2)) 0
      (List.replicate 9 0)).value = some 9 ∧
    (Udp.serialize_n (Udp.new ⟨53, 80, 9, 0, [0]⟩ (.V4 10 0 0 1) (.V4 10 0 0 2)) 0
      (List.replicate 9 0)).value ≠ some 8 := by
  decide

/-- C2 (amended): for a header with EMPTY payload (so `get_size = 8`),
matching families and a buffer of at least 8 bytes, `serialize_n` writes
`(8 + n) % 2 ^ 16` into the length field and returns `8 + n` for every
`n ≥ 0`. -/
theorem C2_serialize_n_amended (u : Udp) (n : Nat) (buffer : List Nat)
    (hpay : u.layer.payload = []) (hfam : sameFamily u.src u.dst = true)
    (hbuf : 8 ≤ buffer.length) :
    ∃ b, u.serialize_n n buffer = .ok (8 + n) b ∧ readBE16 b 4 = (8 + n) % 65536 := by
  have hgs : u.get_size = 8 := by
    unfold Udp.get_size
    rw [hpay]
    rfl
  obtain ⟨b, hb, -, hread⟩ := serializeN_ok_spec u n buffer hfam (by omega)
  rw [hgs] at hb hread
  exact ⟨b, hb, hread⟩

/-- C2 (witness): the amended claim at a concrete input: empty payload,
`n = 3`, an 8-byte zero buffer, V4 addresses on both sides. -/
theorem C2_witness :
    ∃ b, Udp.serialize_n (Udp.new ⟨53, 80, 8, 0, []⟩ (.V4 10 0 0 1) (.V4 10 0 0 2)) 3
        (List.replicate 8 0) = .ok (8 + 3) b ∧ readBE16 b 4 = (8 + 3) % 65536 :=
  C2_serialize_n_amended (Udp.new ⟨53, 80, 8, 0, []⟩ (.V4 10 0 0 1) (.V4 10 0 0 2)) 3
    (List.replicate 8 0) (by decide) (by decide) (by decide)

/-- C3 (counterexample): a buffer of 8 bytes is shorter than the `get_size`
(9) of a header with payload `[0]`, yet `serialize` does not return the
too-small error — it hits the pnet payload assertion (a panic). -/
theorem C3_counterexample :
    (List.replicate 8 0).length <
      (Udp.new ⟨53, 80, 9, 0, [0]⟩ (.V4 10 0 0 1) (.V4 10 0 0 2)).get_size ∧
    Udp.serialize (Udp.new ⟨53, 80, 9, 0, [0]⟩ (.V4 10 0 0 1) (.V4 10 0 0 2))
      (List.replicate 8 0) = .assertViolation ∧
    (Udp.serialize (Udp.new ⟨53, 80, 9, 0, [0]⟩ (.V4 10 0 0 1) (.V4 10 0 0 2))
      (List.replicate 8 0)).errorOf ≠ some .bufferTooSmall := by
  decide

/-- C3 (amended): buffers shorter than 8 bytes always give the
buffer-too-small error (with the buffer untouched); but a buffer of at least
8 bytes that is still shorter than `get_size` makes `serialize` fail the
payload-copy assertion (a panic), not an error return. -/
theorem C3_buffer_too_small_amended (u : Udp) (buffer : List Nat) :
    (buffer.length < 8 → u.serialize buffer = .err .bufferTooSmall buffer) ∧
    (8 ≤ buffer.length → buffer.length < u.get_size →
      u.serialize buffer = .assertViolation) := by
  constructor
  · intro h
    unfold Udp.serialize
    rw [if_pos h]
  · intro h8 hlt
    have hpop : populate buffer u.layer = none := by
      unfold populate setPayload
      rw [if_neg]
      simp only [writeBE16, List.length_set]
      have : u.get_size = 8 + u.layer.payload.length := rfl
      omega
    unfold Udp.serialize
    rw [if_neg (by omega), hpop]

/-- C3 (witness): the amended claim at concrete inputs: a 3-byte buffer gives
the too-small error; an 8-byte buffer with a 9-byte `get_size` gives the
assertion violation. -/
theorem C3_witness :
    Udp.serialize (Udp.new ⟨53, 80, 8, 0, []⟩ (.V4 10 0 0 1) (.V4 10 0 0 2)) [0, 0, 0] =
      .err .bufferTooSmall [0, 0, 0] ∧
    Udp.serialize (Udp.new ⟨53, 80, 9, 7, [0]⟩ (.V4 10 0 0 1) (.V4 10 0 0 2))
      (List.replicate 8 0) = .assertViolation :=
  ⟨(C3_buffer_too_small_amended _ _).1 (by decide),
   (C3_buffer_too_small_amended _ _).2 (by decide) (by decide)⟩

/-- C4 (counterexample): with mismatched families, payload `[0]` and an
8-byte buffer, both `serialize` and `serialize_n` hit the payload assertion
(a panic) BEFORE the family check — no mismatch error is returned. -/
theorem C4_counterexample :
    Udp.serialize (Udp.new ⟨53, 80, 9, 0, [0]⟩ (.V4 10 0 0 1) (.V6 0 0 0 0 0 0 0 1))
      (List.replicate 8 0) = .assertViolation ∧
    Udp.serialize_n (Udp.new ⟨53, 80, 9, 0, [0]⟩ (.V4 10 0 0 1) (.V6 0 0 0 0 0 0 0 1)) 0
      (List.replicate 8 0) = .assertViolation := by
  decide

/-- C4 (amended): with mismatched address families and a buffer of at least
`get_size` bytes (at least 8 suffices only when the payload is empty), both
`serialize` and `serialize_n` return the address-family-mismatch error. -/
theorem C4_mismatch_amended (u : Udp) (n : Nat) (buffer : List Nat)
    (hfam : sameFamily u.src u.dst = false) (hfit : u.get_size ≤ buffer.length) :
    (u.serialize buffer).errorOf = some .addressFamilyMismatch ∧
    (u.serialize_n n buffer).errorOf = some .addressFamilyMismatch := by
  obtain ⟨p, -, hser⟩ := serialize_mismatch_spec u buffer hfam hfit
  obtain ⟨q, -, hserN⟩ := serializeN_mismatch_spec u n buffer hfam hfit
  rw [hser, hserN]
  exact ⟨rfl, rfl⟩

/-- C4 (witness): the amended claim at a concrete input: V4 source, V6
destination, empty payload, an 8-byte zero buffer, `n = 2`. -/
theorem C4_witness :
    (Udp.serialize (Udp.new ⟨53, 80, 8, 0, []⟩ (.V4 10 0 0 1) (.V6 0 0 0 0 0 0 0 1))
      (List.replicate 8 0)).errorOf = some .addressFamilyMismatch ∧
    (Udp.serialize_n (Udp.new ⟨53, 80, 8, 0, []⟩ (.V4 10 0 0 1) (.V6 0 0 0 0 0 0 0 1)) 2
      (List.replicate 8 0)).errorOf = some .addressFamilyMismatch :=
  C4_mismatch_amended (Udp.new ⟨53, 80, 8, 0, []⟩ (.V4 10 0 0 1) (.V6 0 0 0 0 0 0 0 1)) 2
    (List.replicate 8 0) (by decide) (by decide)

/-- C9 (counterexample): on a mismatched-family `serialize_n` call, the length
field found in the buffer at error time is the recalculated `get_size + n`
(here 8), NOT the big-endian bytes of the model's `length` field (here 5) —
so the buffer does not hold "the header's field bytes" as claimed. -/
theorem C9_counterexample :
    (Udp.serialize_n (Udp.new ⟨53, 80, 5, 0, []⟩ (.V4 10 0 0 1) (.V6 0 0 0 0 0 0 0 1)) 0
      (List.replicate 8 0)).errorOf = some .addressFamilyMismatch ∧
    (Udp.serialize_n (Udp.new ⟨53, 80, 5, 0, []⟩ (.V4 10 0 0 1) (.V6 0 0 0 0 0 0 0 1)) 0
      (List.replicate 8 0)).finalBuffer.map (fun b => readBE16 b 4) = some 8 ∧
    (Udp.new ⟨53, 80, 5, 0, []⟩ (.V4 10 0 0 1) (.V6 0 0 0 0 0 0 0 1)).layer.length = 5 ∧
    (8 : Nat) ≠ 5 := by
  decide

/-- C9 (amended): when the family-mismatch error is returned on a buffer the
payload fits in, the buffer has already been overwritten: after `serialize`
it holds the ports, the model's length and the model's stored checksum
big-endian; after `serialize_n` it holds the ports, the RECALCULATED length
`(get_size + n) % 2 ^ 16` and the model's stored checksum. The error is not
atomic with respect to the output buffer. -/
theorem C9_mismatch_overwrites_buffer (u : Udp) (n : Nat) (buffer : List Nat)
    (hfam : sameFamily u.src u.dst = false) (hfit : u.get_size ≤ buffer.length) :
    (∃ p, u.serialize buffer = .err .addressFamilyMismatch p ∧
      readBE16 p 0 = u.layer.source % 65536 ∧
      readBE16 p 2 = u.layer.destination % 65536 ∧
      readBE16 p 4 = u.layer.length % 65536 ∧
      readBE16 p 6 = u.layer.checksum % 65536) ∧
    (∃ q, u.serialize_n n buffer = .err .addressFamilyMismatch q ∧
      readBE16 q 0 = u.layer.source % 65536 ∧
      readBE16 q 2 = u.layer.destination % 65536 ∧
      readBE16 q 4 = (u.get_size + n) % 65536 ∧
      readBE16 q 6 = u.layer.checksum % 65536) := by
  have hfit8 : 8 + u.layer.payload.length ≤ buffer.length := hfit
  obtain ⟨p, hpop, hser⟩ := serialize_mismatch_spec u buffer hfam hfit
  obtain ⟨p2, hpop2, hserN⟩ := serializeN_mismatch_spec u n buffer hfam hfit
  rw [hpop] at hpop2
  injection hpop2 with hpp
  subst hpp
  obtain ⟨p3, hpop3, hlen, h0, h1, h2, h3, h4, h5, h6, h7, -, -⟩ :=
    populate_spec buffer u.layer hfit8
  rw [hpop] at hpop3
  injection hpop3 with hpp3
  subst hpp3
  have hplen : 8 ≤ p.length := by omega
  constructor
  · refine ⟨p, hser, ?_, ?_, ?_, ?_⟩
    · show 256 * p.getD 0 0 + p.getD 1 0 = u.layer.source % 65536
      omega
    · show 256 * p.getD 2 0 + p.getD 3 0 = u.layer.destination % 65536
      omega
    · show 256 * p.getD 4 0 + p.getD 5 0 = u.layer.length % 65536
      omega
    · show 256 * p.getD 6 0 + p.getD 7 0 = u.layer.checksum % 65536
      omega
  · refine ⟨writeBE16 p 4 (u.get_size + n), hserN, ?_, ?_, ?_, ?_⟩
    · rw [readBE16_writeBE16_away _ _ _ _ (by omega)]
      show 256 * p.getD 0 0 + p.getD 1 0 = u.layer.source % 65536
      omega
    · rw [readBE16_writeBE16_away _ _ _ _ (by omega)]
      show 256 * p.getD 2 0 + p.getD 3 0 = u.layer.destination % 65536
      omega
    · rw [readBE16_writeBE16 _ _ _ (by omega)]
    · rw [readBE16_writeBE16_away _ _ _ _ (by omega)]
      show 256 * p.getD 6 0 + p.getD 7 0 = u.layer.checksum % 65536
      omega

/-- C9 (witness): the amended claim at a concrete input: ports 53/80, length
field 5, stored checksum 7, empty payload, V4 source and V6 destination, an
8-byte zero buffer and `n = 1` (so `serialize_n` leaves 9 in the length
field, not 5). -/
theorem C9_witness :
    (∃ p, Udp.serialize (Udp.new ⟨53, 80, 5, 7, []⟩ (.V4 10 0 0 1) (.V6 0 0 0 0 0 0 0 1))
        (List.replicate 8 0) = .err .addressFamilyMismatch p ∧
      readBE16 p 0 = 53 ∧ readBE16 p 2 = 80 ∧ readBE16 p 4 = 5 ∧ readBE16 p 6 = 7) ∧
    (∃ q, Udp.serialize_n (Udp.new ⟨53, 80, 5, 7, []⟩ (.V4 10 0 0 1) (.V6 0 0 0 0 0 0 0 1)) 1
        (List.replicate 8 0) = .err .addressFamilyMismatch q ∧
      readBE16 q 0 = 53 ∧ readBE16 q 2 = 80 ∧ readBE16 q 4 = 9 ∧ readBE16 q 6 = 7) :=
  C9_mismatch_overwrites_buffer
    (Udp.new ⟨53, 80, 5, 7, []⟩ (.V4 10 0 0 1) (.V6 0 0 0 0 0 0 0 1)) 1
    (List.replicate 8 0) (by decide) (by decide)

/-- C10: on a successful `serialize_n`, the buffer carries
`(get_size + n) % 2 ^ 16` in the length field while the untruncated
`get_size + n` is returned, and the two disagree whenever
`get_size + n ≥ 65536`. -/
theorem C10_length_truncation (u : Udp) (n : Nat) (buffer : List Nat)
    (hfam : sameFamily u.src u.dst = true) (hfit : u.get_size ≤ buffer.length) :
    ∃ b, u.serialize_n n buffer = .ok (u.get_size + n) b ∧
      readBE16 b 4 = (u.get_size + n) % 65536 ∧
      (65536 ≤ u.get_size + n → readBE16 b 4 ≠ u.get_size + n) := by
  obtain ⟨b, hb, -, hread⟩ := serializeN_ok_spec u n buffer hfam hfit
  refine ⟨b, hb, hread, ?_⟩
  intro hge
  rw [hread]
  omega

/-- C10 (witness): at `n = 65536` with an empty payload the call returns
65544 while the buffer length field holds 8. -/
theorem C10_witness :
    ∃ b, Udp.serialize_n (Udp.new ⟨53, 80, 8, 0, []⟩ (.V4 10 0 0 1) (.V4 10 0 0 2)) 65536
        (List.replicate 8 0) = .ok 65544 b ∧
      readBE16 b 4 = 8 ∧
      (65536 ≤ 65544 → readBE16 b 4 ≠ 65544) :=
  C10_length_truncation (Udp.new ⟨53, 80, 8, 0, []⟩ (.V4 10 0 0 1) (.V4 10 0 0 2)) 65536
    (List.replicate 8 0) (by decide) (by decide)

/-- C8: parsing the raw 8-byte header `[00 35 00 50 00 08 c1 c2]` (source
port 53, destination port 80, length 8) and describing the result yields
exactly `"UDP: 53 -> 80, Length = 8"`, for any checksum bytes `c1 c2` and any
enclosing addresses — parse does not re-verify the input checksum. -/
theorem C8_parse_describe (c1 c2 : Nat) (src dst : IpAddr) :
    (Udp.parse [0x00, 0x35, 0x00, 0x50, 0x00, 0x08, c1, c2] src dst).describe =
      "UDP: 53 -> 80, Length = 8" := by
  simp [Udp.parse, Udp.describe, readBE16, List.getD]
  rfl

/-- C7: a parse of a structurally valid raw view (at least 8 bytes of u8
values, any trailing payload) always has empty model payload, and a
successful reserialization into any buffer of at least 8 bytes reproduces the
source port, destination port and length bytes (offsets 0-5) of the raw view
byte for byte; the checksum bytes are freshly computed (the witness shows an
input where they differ from the raw ones). -/
theorem C7_roundtrip (raw : List Nat) (src dst : IpAddr) (buffer : List Nat)
    (hraw : 8 ≤ raw.length) (hbytes : ∀ j, j < 8 → raw.getD j 0 < 256)
    (hfam : sameFamily src dst = true) (hbuf : 8 ≤ buffer.length) :
    (Udp.parse raw src dst).layer.payload = [] ∧
    ∃ b, (Udp.parse raw src dst).serialize buffer = .ok () b ∧
      b.getD 0 0 = raw.getD 0 0 ∧ b.getD 1 0 = raw.getD 1 0 ∧
      b.getD 2 0 = raw.getD 2 0 ∧ b.getD 3 0 = raw.getD 3 0 ∧
      b.getD 4 0 = raw.getD 4 0 ∧ b.getD 5 0 = raw.getD 5 0 := by
  refine ⟨rfl, ?_⟩
  obtain ⟨p, ck, hpop, hck, hser⟩ :=
    serialize_ok_spec (Udp.parse raw src dst) buffer hfam (by exact hbuf)
  obtain ⟨p2, hpop2, hplen, h0, h1, h2, h3, h4, h5, -, -, -, -⟩ :=
    populate_spec buffer (Udp.parse raw src dst).layer (by exact hbuf)
  rw [hpop] at hpop2
  injection hpop2 with hpp
  subst hpp
  have e0 := hbytes 0 (by omega)
  have e1 := hbytes 1 (by omega)
  have e2 := hbytes 2 (by omega)
  have e3 := hbytes 3 (by omega)
  have e4 := hbytes 4 (by omega)
  have e5 := hbytes 5 (by omega)
  refine ⟨writeBE16 p 6 ck, hser, ?_, ?_, ?_, ?_, ?_, ?_⟩
  · rw [getD_writeBE16_ne _ _ _ _ (by omega) (by omega), h0]
    show (256 * raw.getD 0 0 + raw.getD 1 0) % 65536 / 256 = raw.getD 0 0
    omega
  · rw [getD_writeBE16_ne _ _ _ _ (by omega) (by omega), h1]
    show (256 * raw.getD 0 0 + raw.getD 1 0) % 256 = raw.getD 1 0
    omega
  · rw [getD_writeBE16_ne _ _ _ _ (by omega) (by omega), h2]
    show (256 * raw.getD 2 0 + raw.getD 3 0) % 65536 / 256 = raw.getD 2 0
    omega
  · rw [getD_writeBE16_ne _ _ _ _ (by omega) (by omega), h3]
    show (256 * raw.getD 2 0 + raw.getD 3 0) % 256 = raw.getD 3 0
    omega
  · rw [getD_writeBE16_ne _ _ _ _ (by omega) (by omega), h4]
    show (256 * raw.getD 4 0 + raw.getD 5 0) % 65536 / 256 = raw.getD 4 0
    omega
  · rw [getD_writeBE16_ne _ _ _ _ (by omega) (by omega), h5]
    show (256 * raw.getD 4 0 + raw.getD 5 0) % 256 = raw.getD 5 0
    omega

/-- C7 (witness): the round trip at a concrete raw view with two trailing
payload bytes: the header bytes 0-5 are reproduced, the model payload is
empty, and the recomputed checksum differs from the raw checksum bytes
`AB CD`. -/
theorem C7_witness :
    ((Udp.parse [0, 53, 0, 80, 0, 8, 171, 205, 9, 9] (.V4 10 0 0 1)
        (.V4 10 0 0 2)).layer.payload = [] ∧
      ∃ b, (Udp.parse [0, 53, 0, 80, 0, 8, 171, 205, 9, 9] (.V4 10 0 0 1)
          (.V4 10 0 0 2)).serialize (List.replicate 8 0) = .ok () b ∧
        b.getD 0 0 = 0 ∧ b.getD 1 0 = 53 ∧ b.getD 2 0 = 0 ∧ b.getD 3 0 = 80 ∧
        b.getD 4 0 = 0 ∧ b.getD 5 0 = 8) ∧
    ((Udp.parse [0, 53, 0, 80, 0, 8, 171, 205, 9, 9] (.V4 10 0 0 1)
        (.V4 10 0 0 2)).serialize (List.replicate 8 0)).finalBuffer.map
      (fun b => readBE16 b 6) ≠ some 43981 :=
  ⟨C7_roundtrip [0, 53, 0, 80, 0, 8, 171, 205, 9, 9] (.V4 10 0 0 1) (.V4 10 0 0 2)
    (List.replicate 8 0) (by decide) (by decide) (by decide) (by decide), by decide⟩

/-- C5 (counterexample): two headers with identical ports, length field and
addresses (differing only in payload) both serialize successfully into
9-byte zero buffers yet write different checksums — the checksum the code
writes is NOT a function of (ports, length, addresses) alone, because pnet
checksums the whole buffer (payload bytes included). -/
theorem C5_counterexample :
    (Udp.serialize (Udp.new ⟨53, 80, 9, 0, [0]⟩ (.V4 10 0 0 1) (.V4 10 0 0 2))
      (List.replicate 9 0)).value = some () ∧
    (Udp.serialize (Udp.new ⟨53, 80, 9, 0, [255]⟩ (.V4 10 0 0 1) (.V4 10 0 0 2))
      (List.replicate 9 0)).value = some () ∧
    (Udp.serialize (Udp.new ⟨53, 80, 9, 0, [0]⟩ (.V4 10 0 0 1) (.V4 10 0 0 2))
      (List.replicate 9 0)).finalBuffer.map (fun b => readBE16 b 6) ≠
    (Udp.serialize (Udp.new ⟨53, 80, 9, 0, [255]⟩ (.V4 10 0 0 1) (.V4 10 0 0 2))
      (List.replicate 9 0)).finalBuffer.map (fun b => readBE16 b 6) := by
  decide

/-- C5 (amended): restricted to empty-payload headers serialized into a
buffer of exactly `wire_size = 8` bytes (so the checksummed data is exactly
the header), with in-range u16 fields and in-range matching-family addresses:
the checksum written at offset 6 equals the independent reference
pseudo-header checksum over (addresses, protocol 17, datagram length 8)
followed by the header words (ports, length field, zero checksum) — hence it
is deterministic in (ports, length field, addresses). The pseudo-header
length the code uses is the buffer length 8, not the declared length field. -/
theorem C5_checksum_reference_amended (u : Udp) (buffer : List Nat)
    (hlen : buffer.length = 8) (hpay : u.layer.payload = [])
    (hs : u.layer.source < 65536) (hd : u.layer.destination < 65536)
    (hl : u.layer.length < 65536)
    (hsrc : u.src.inRange = true) (hdst : u.dst.inRange = true)
    (hfam : sameFamily u.src u.dst = true) :
    ∃ b, u.serialize buffer = .ok () b ∧
      readBE16 b 6 =
        referenceChecksum u.src u.dst 8 u.layer.source u.layer.destination
          u.layer.length := by
  obtain ⟨l, src, dst⟩ := u
  have hpay' : l.payload = [] := hpay
  have hs' : l.source < 65536 := hs
  have hd' : l.destination < 65536 := hd
  have hl' : l.length < 65536 := hl
  have hfit : 8 + l.payload.length ≤ buffer.length := by simp [hpay', hlen]
  have h8 : ¬ buffer.length < 8 := by omega
  obtain ⟨p, hpop, hplen, h0, h1, h2, h3, h4, h5, h6, h7, -, -⟩ :=
    populate_spec buffer l hfit
  have hp8 : p.length = 8 := by omega
  have w0 : beWordAt p 0 = l.source := by
    show 256 * p.getD 0 0 + p.getD 1 0 = l.source
    omega
  have w1 : beWordAt p 1 = l.destination := by
    show 256 * p.getD 2 0 + p.getD 3 0 = l.destination
    omega
  have w2 : beWordAt p 2 = l.length := by
    show 256 * p.getD 4 0 + p.getD 5 0 = l.length
    omega
  cases src with
  | V4 s0 s1 s2 s3 =>
    cases dst with
    | V6 d0 d1 d2 d3 d4 d5 d6 d7 => simp [sameFamily] at hfam
    | V4 d0 d1 d2 d3 =>
      simp only [IpAddr.inRange, Bool.and_eq_true, decide_eq_true_eq] at hsrc hdst
      obtain ⟨⟨⟨hs0, hs1⟩, hs2⟩, hs3⟩ := hsrc
      obtain ⟨⟨⟨hd0, hd1⟩, hd2⟩, hd3⟩ := hdst
      refine ⟨writeBE16 p 6 (udp.ipv4_checksum p s0 s1 s2 s3 d0 d1 d2 d3),
        by simp [Udp.serialize, h8, hpop], ?_⟩
      rw [readBE16_writeBE16 _ _ _ (by omega)]
      have hle : udp.ipv4_checksum p s0 s1 s2 s3 d0 d1 d2 d3 ≤ 65535 :=
        finalizeChecksum_le _
      rw [Nat.mod_eq_of_lt (by omega)]
      unfold udp.ipv4_checksum finalizeChecksum
      rw [sumBeWords_eight p hp8, w0, w1, w2, hp8]
      unfold referenceChecksum onesComplement16
      simp only [pseudoHeaderWords, List.cons_append, List.nil_append,
        List.foldl_cons, List.foldl_nil]
      rw [Nat.mod_eq_of_lt (by unfold udp.ipv4WordSum; omega)]
      congr 2
      unfold udp.ipv4WordSum
      omega
  | V6 s0 s1 s2 s3 s4 s5 s6 s7 =>
    cases dst with
    | V4 d0 d1 d2 d3 => simp [sameFamily] at hfam
    | V6 d0 d1 d2 d3 d4 d5 d6 d7 =>
      simp only [IpAddr.inRange, Bool.and_eq_true, decide_eq_true_eq] at hsrc hdst
      obtain ⟨⟨⟨⟨⟨⟨⟨hs0, hs1⟩, hs2⟩, hs3⟩, hs4⟩, hs5⟩, hs6⟩, hs7⟩ := hsrc
      obtain ⟨⟨⟨⟨⟨⟨⟨hd0, hd1⟩, hd2⟩, hd3⟩, hd4⟩, hd5⟩, hd6⟩, hd7⟩ := hdst
      refine ⟨writeBE16 p 6
          (udp.ipv6_checksum p s0 s1 s2 s3 s4 s5 s6 s7 d0 d1 d2 d3 d4 d5 d6 d7),
        by simp [Udp.serialize, h8, hpop], ?_⟩
      rw [readBE16_writeBE16 _ _ _ (by omega)]
      have hle : udp.ipv6_checksum p s0 s1 s2 s3 s4 s5 s6 s7 d0 d1 d2 d3 d4 d5 d6 d7 ≤
          65535 := finalizeChecksum_le _
      rw [Nat.mod_eq_of_lt (by omega)]
      unfold udp.ipv6_checksum finalizeChecksum
      rw [sumBeWords_eight p hp8, w0, w1, w2, hp8]
      unfold referenceChecksum onesComplement16
      simp only [pseudoHeaderWords, List.cons_append, List.nil_append,
        List.foldl_cons, List.foldl_nil]
      rw [Nat.mod_eq_of_lt (by unfold udp.ipv6WordSum; omega)]
      congr 2
      unfold udp.ipv6WordSum
      omega

/-- C5 (witness): the amended claim at a concrete input: ports 53/80, length
field 8, stored checksum 1234 (overwritten), V4 addresses 10.0.0.1 and
10.0.0.2, an 8-byte zero buffer. -/
theorem C5_witness :
    ∃ b, Udp.serialize (Udp.new ⟨53, 80, 8, 1234, []⟩ (.V4 10 0 0 1) (.V4 10 0 0 2))
        (List.replicate 8 0) = .ok () b ∧
      readBE16 b 6 = referenceChecksum (.V4 10 0 0 1) (.V4 10 0 0 2) 8 53 80 8 :=
  C5_checksum_reference_amended
    (Udp.new ⟨53, 80, 8, 1234, []⟩ (.V4 10 0 0 1) (.V4 10 0 0 2)) (List.replicate 8 0)
    (by decide) (by decide) (by decide) (by decide) (by decide) (by decide) (by decide)
    (by decide)

/-- C6: two headers that differ only in the stored checksum field produce
identical outcomes (in particular identical buffer contents) on a successful
`serialize`: the stored checksum is written as a placeholder, skipped by the
checksum computation (skipword 3), and overwritten by the freshly computed
value. -/
theorem C6_checksum_field_ignored (l1 l2 : udp.Udp) (src dst : IpAddr)
    (buffer : List Nat)
    (hs : l1.source = l2.source) (hd : l1.destination = l2.destination)
    (hl : l1.length = l2.length) (hp : l1.payload = l2.payload)
    (hfam : sameFamily src dst = true)
    (hfit : 8 + l1.payload.length ≤ buffer.length) :
    Udp.serialize ⟨l1, src, dst⟩ buffer = Udp.serialize ⟨l2, src, dst⟩ buffer := by
  have hfit2 : 8 + l2.payload.length ≤ buffer.length := by rw [← hp]; exact hfit
  obtain ⟨p1, hp1, hlen1, a0, a1, a2, a3, a4, a5, a6, a7, apay, atail⟩ :=
    populate_spec buffer l1 hfit
  obtain ⟨p2, hp2, hlen2, b0, b1, b2, b3, b4, b5, b6, b7, bpay, btail⟩ :=
    populate_spec buffer l2 hfit2
  have hplength : l1.payload.length = l2.payload.length := by rw [hp]
  have hagree : ∀ j, j ≠ 6 → j ≠ 7 → p1.getD j 0 = p2.getD j 0 := by
    intro j h6 h7
    by_cases hj8 : j < 8
    · interval_cases j
      · rw [a0, b0, hs]
      · rw [a1, b1, hs]
      · rw [a2, b2, hd]
      · rw [a3, b3, hd]
      · rw [a4, b4, hl]
      · rw [a5, b5, hl]
      · exact absurd rfl h6
      · exact absurd rfl h7
    · by_cases hjp : j < 8 + l1.payload.length
      · rw [apay j (by omega) (by omega), bpay j (by omega) (by omega), hp]
      · rw [atail j (by omega), btail j (by omega)]
  have hlen12 : p1.length = p2.length := by rw [hlen1, hlen2]
  have hsum : sumBeWords p1 3 = sumBeWords p2 3 :=
    sumBeWords_congr p1 p2 hlen12 (by omega) hagree
  have hbufeq : ∀ ck, writeBE16 p1 6 ck = writeBE16 p2 6 ck := by
    intro ck
    apply list_eq_of_getD
    · simp only [writeBE16, List.length_set]
      omega
    · intro j
      by_cases h6 : j = 6
      · subst h6
        rw [getD_writeBE16_hi _ _ _ (by omega), getD_writeBE16_hi _ _ _ (by omega)]
      · by_cases h7 : j = 7
        · subst h7
          rw [show (7:Nat) = 6 + 1 from rfl, getD_writeBE16_lo _ _ _ (by omega),
            getD_writeBE16_lo _ _ _ (by omega)]
        · rw [getD_writeBE16_ne _ _ _ _ (by omega) (by omega),
            getD_writeBE16_ne _ _ _ _ (by omega) (by omega)]
          exact hagree j h6 h7
  have h8 : ¬ buffer.length < 8 := by omega
  cases src with
  | V4 s0 s1 s2 s3 =>
    cases dst with
    | V6 d0 d1 d2 d3 d4 d5 d6 d7 => simp [sameFamily] at hfam
    | V4 d0 d1 d2 d3 =>
      have hck : udp.ipv4_checksum p1 s0 s1 s2 s3 d0 d1 d2 d3 =
          udp.ipv4_checksum p2 s0 s1 s2 s3 d0 d1 d2 d3 := by
        unfold udp.ipv4_checksum
        rw [hsum, hlen1, hlen2]
      simp only [Udp.serialize, h8, if_false, hp1, hp2]
      rw [hck, hbufeq]
  | V6 s0 s1 s2 s3 s4 s5 s6 s7 =>
    cases dst with
    | V4 d0 d1 d2 d3 => simp [sameFamily] at hfam
    | V6 d0 d1 d2 d3 d4 d5 d6 d7 =>
      have hck : udp.ipv6_checksum p1 s0 s1 s2 s3 s4 s5 s6 s7 d0 d1 d2 d3 d4 d5 d6 d7 =
          udp.ipv6_checksum p2 s0 s1 s2 s3 s4 s5 s6 s7 d0 d1 d2 d3 d4 d5 d6 d7 := by
        unfold udp.ipv6_checksum
        rw [hsum, hlen1, hlen2]
      simp only [Udp.serialize, h8, if_false, hp1, hp2]
      rw [hck, hbufeq]

/-- C6 (witness): two concrete headers that differ only in the stored
checksum (0 vs 65535) serialize identically into an 8-byte zero buffer. -/
theorem C6_witness :
    Udp.serialize ⟨⟨53, 80, 8, 0, []⟩, .V4 10 0 0 1, .V4 10 0 0 2⟩ (List.replicate 8 0) =
      Udp.serialize ⟨⟨53, 80, 8, 65535, []⟩, .V4 10 0 0 1, .V4 10 0 0 2⟩
        (List.replicate 8 0) :=
  C6_checksum_field_ignored ⟨53, 80, 8, 0, []⟩ ⟨53, 80, 8, 65535, []⟩
    (.V4 10 0 0 1) (.V4 10 0 0 2) (List.replicate 8 0)
    (by decide) (by decide) (by decide) (by decide) (by decide) (by decide)
